import Mathlib

/-!
Verification of the vote-casting and tallying engine of the UNB Presidential
Election API (src/main.py, src/schemas.py) against its specification.

The four MongoDB collections (voter, voterstatus, candidate, vote) are
modelled as lists of documents; each pymongo call of the handlers
(find_one, insert, update_one, aggregate) is embedded as a pure operation
on that state.  Handler bodies are translated line by line from
src/main.py.  Float arithmetic of get_results is read as exact rational
arithmetic; Python round(x, 2) is embedded as round-half-to-even at two
decimal places.
-/

namespace Election

/-- Document of the "voter" collection (schemas.py, class Voter).  Only the
nim and eligible fields are ever read by the engine; eligible is optional
because a stored document may lack the field, in which case
voter.get("eligible", True) defaults to true.  name and program are never
read by any handler and are omitted. -/
structure VoterDoc where
  nim : String
  eligible : Option Bool
  deriving DecidableEq, Repr

/-- Document of the "voterstatus" collection (schemas.py, class VoterStatus).
has_voted is optional because status.get("has_voted", False) defaults to
false when the field is absent. -/
structure StatusDoc where
  nim : String
  has_voted : Option Bool
  voted_at : Option String
  deriving DecidableEq, Repr

/-- Document of the "candidate" collection (schemas.py, class Candidate).
id is str(_id), the canonical lowercase 24-hex ObjectId string.  vision,
mission and photo_url are never read by cast_vote or get_results and are
omitted. -/
structure CandidateDoc where
  id : String
  number : Int
  president_name : String
  vice_name : String
  deriving DecidableEq, Repr

/-- Document of the "vote" collection (schemas.py, class Vote): the anonymous
ballot.  Its only field is candidate_id, the raw string from the request. -/
structure Vote where
  candidate_id : String
  deriving DecidableEq, Repr

/-- Joint state of the four collections.  votes is append-only in insertion
order. -/
structure DocState where
  voters : List VoterDoc
  statuses : List StatusDoc
  candidates : List CandidateDoc
  votes : List Vote
  deriving DecidableEq, Repr

/-- Error outcomes of the vote endpoint, one per HTTPException raised in
src/main.py plus the pydantic request validation failure. -/
inductive VoteError where
  /-- 403 "NIM is not eligible to vote" (main.py line 147) -/
  | notEligible
  /-- 409 "This NIM has already voted" (main.py line 152) -/
  | alreadyVoted
  /-- 400 "Invalid candidate_id" from objid (main.py line 65) -/
  | invalidInput
  /-- 404 "Candidate not found" (main.py line 157) -/
  | candidateNotFound
  /-- 422 pydantic validation failure of VoteRequest (main.py lines 33-35) -/
  | validationError
  deriving DecidableEq, Repr

/-- HTTP status code of each error.  -/
def statusCode : VoteError → Nat
  | .notEligible => 403
  | .alreadyVoted => 409
  | .invalidInput => 400
  | .candidateNotFound => 404
  | .validationError => 422

/-- Hexadecimal digit, as accepted by bson ObjectId. -/
def isHexDigit (c : Char) : Bool :=
  c.isDigit || ('a' ≤ c && c ≤ 'f') || ('A' ≤ c && c ≤ 'F')

/-- bson ObjectId(oid) succeeds exactly on 24-character hexadecimal strings;
objid (main.py lines 61-65) raises 400 Invalid candidate_id otherwise. -/
def isValidObjectId (s : String) : Bool :=
  s.length == 24 && s.data.all isHexDigit

/-- db.voter.find_one with filter nim (main.py line 145): first document of
the collection whose nim field matches. -/
def voterLookup (s : DocState) (nim : String) : Option VoterDoc :=
  s.voters.find? (fun v => v.nim == nim)

/-- status = db.voterstatus.find_one nim; status and status.get("has_voted",
False) (main.py lines 150-151). -/
def statusHasVoted (s : DocState) (nim : String) : Bool :=
  match s.statuses.find? (fun st => st.nim == nim) with
  | some st => st.has_voted.getD false
  | none => false

/-- Lowercase a string character by character, as str.lower on ASCII. -/
def lowerStr (s : String) : String := ⟨s.data.map Char.toLower⟩

/-- db.candidate.find_one by _id = objid(candidate_id) (main.py line 155).
ObjectId compares by value, so the request string is compared
case-insensitively against the canonical lowercase id. -/
def candidateLookup (s : DocState) (cid : String) : Option CandidateDoc :=
  s.candidates.find? (fun c => c.id == lowerStr cid)

/-- db.voterstatus.update_one by nim with a $set of nim, has_voted=True,
voted_at=ts, upsert=True (main.py lines 164-168): replace the first
document matching nim, or insert a fresh one when none matches. -/
def upsertStatus : List StatusDoc → String → String → List StatusDoc
  | [], nim, ts => [⟨nim, some true, some ts⟩]
  | d :: ds, nim, ts =>
      if d.nim == nim then ⟨nim, some true, some ts⟩ :: ds
      else d :: upsertStatus ds nim ts

/-- cast_vote handler body (main.py lines 139-170), translated line by line:
1) voter eligibility check (145-147), 2) one-vote check against voterstatus
(150-152), 3) candidate resolution, with the ObjectId parse of objid
happening here (155-157), 4) insert of the anonymous Vote document
(160-161), 5) upsert of the voter status (164-168).  Returns the state of
the collections after the call together with the outcome. -/
def castVote (nim candidate_id ts : String) (s : DocState) :
    DocState × Except VoteError Unit :=
  match voterLookup s nim with
  | none => (s, .error .notEligible)
  | some v =>
    if !(v.eligible.getD true) then (s, .error .notEligible)
    else if statusHasVoted s nim then (s, .error .alreadyVoted)
    else if !(isValidObjectId candidate_id) then (s, .error .invalidInput)
    else
      match candidateLookup s candidate_id with
      | none => (s, .error .candidateNotFound)
      | some _ =>
        let s1 : DocState := { s with votes := s.votes ++ [⟨candidate_id⟩] }
        ({ s1 with statuses := upsertStatus s1.statuses nim ts }, .ok ())

/-- The vote endpoint including the pydantic validation of VoteRequest
(main.py lines 33-35): nim must have length between 8 and 20; the handler
body runs only after that check. -/
def apiCastVote (nim candidate_id ts : String) (s : DocState) :
    DocState × Except VoteError Unit :=
  if 8 ≤ nim.length ∧ nim.length ≤ 20 then castVote nim candidate_id ts s
  else (s, .error .validationError)

/-- Response of the validate endpoint (main.py lines 28-31). -/
structure ValidateResponse where
  nim : String
  eligible : Bool
  has_voted : Bool
  deriving DecidableEq, Repr

/-- validate_voter handler (main.py lines 123-136).  Read-only: performs two
find_one calls and never writes. -/
def validateVoter (nim : String) (s : DocState) : ValidateResponse :=
  let eligible := match voterLookup s nim with
    | some v => v.eligible.getD true
    | none => false
  let has_voted := statusHasVoted s nim
  match voterLookup s nim with
  | none => ⟨nim, false, false⟩
  | some _ => ⟨nim, eligible, has_voted⟩

/-- One row of the results payload (main.py lines 46-52).  percentage is the
exact rational reading of the float. -/
structure ResultsItem where
  candidate_id : String
  number : Int
  president_name : String
  vice_name : String
  count : Nat
  percentage : ℚ
  deriving DecidableEq, Repr

/-- Results payload (main.py lines 54-56). -/
structure ResultsResponse where
  total_votes : Nat
  results : List ResultsItem
  deriving DecidableEq, Repr

/-- Python dict assignment m[k] = v on a dict embedded as an association
list in insertion order: overwrite the value of an existing key in place,
append a fresh key at the end. -/
def dinsert : List (String × Nat) → String → Nat → List (String × Nat)
  | [], k, v => [(k, v)]
  | p :: ps, k, v =>
      if p.1 == k then (k, v) :: ps else p :: dinsert ps k v

/-- Python dict read m.get(k). -/
def dlookup : List (String × Nat) → String → Option Nat
  | [], _ => none
  | p :: ps, k => if p.1 == k then some p.2 else dlookup ps k

/-- sum(m.values()). -/
def valsum (m : List (String × Nat)) : Nat := (m.map Prod.snd).sum

/-- The candidate_id strings of the vote collection, in insertion order. -/
def voteCids (s : DocState) : List String := s.votes.map Vote.candidate_id

/-- Multiplicity of candidate_id value g among the votes: the count field of
the aggregation row for group g. -/
def countVotes (s : DocState) (g : String) : Nat :=
  ((voteCids s).filter (fun x => x == g)).length

/-- counts_map of get_results (main.py lines 176-187): a dict seeded with
value 0 at each candidate id, then overwritten (or extended, for ballots
whose candidate no longer exists) with the per-group vote counts from the
aggregate over the vote collection. -/
def countsMap (s : DocState) : List (String × Nat) :=
  let m0 := s.candidates.foldl (fun m c => dinsert m c.id 0) []
  ((voteCids s).dedup).foldl (fun m g => dinsert m g (countVotes s g)) m0

/-- Round half to even to the nearest integer, the tie-breaking rule of
CPython round(), on an exact rational value. -/
def rhe (x : ℚ) : ℤ :=
  if x - Rat.floor x < 1/2 then Rat.floor x
  else if 1/2 < x - Rat.floor x then Rat.floor x + 1
  else if Rat.floor x % 2 = 0 then Rat.floor x else Rat.floor x + 1

/-- Python round(x, 2) (main.py line 202) on the exact rational reading of
the float value. -/
def pyRound2 (x : ℚ) : ℚ := (rhe (x * 100) : ℚ) / 100

/-- Body of the per-candidate loop of get_results (main.py lines 191-204):
count = counts_map.get(cid, 0), percentage = count / total * 100 when
total_votes is positive else 0, rounded to two decimal places. -/
def resultItem (s : DocState) (c : CandidateDoc) : ResultsItem :=
  let count := (dlookup (countsMap s) c.id).getD 0
  let rawPct : ℚ :=
    if 0 < valsum (countsMap s) then (count : ℚ) / (valsum (countsMap s) : ℚ) * 100 else 0
  ⟨c.id, c.number, c.president_name, c.vice_name, count, pyRound2 rawPct⟩

/-- get_results handler (main.py lines 173-208): seed counts per candidate,
fold in the aggregate rows, total = sum of all dict values (including
groups for ballots whose candidate no longer exists), one row per
registered candidate, sorted ascending by ballot number.  Read-only. -/
def getResults (s : DocState) : ResultsResponse :=
  ⟨valsum (countsMap s),
   (s.candidates.map (resultItem s)).insertionSort (fun a b => a.number ≤ b.number)⟩

/-!
Fine-grained execution model of cast_vote.  Each pymongo call of the
handler (find_one on voter, find_one on voterstatus, find_one on
candidate, insert of the vote, update_one of the status) is one
indivisible operation against the store; between two of them the
operations of concurrent requests may interleave.  A thread is the
execution of one cast_vote request, its program counter naming the next
store operation. -/

deriving instance DecidableEq for Except

/-- Control state of one in-flight cast_vote request: pc 0 = voter read,
1 = status read, 2 = candidate read (with the local ObjectId parse),
3 = vote insert, 4 = status upsert, 5 = finished with recorded outcome. -/
structure ThreadState where
  pc : Nat
  res : Option (Except VoteError Unit)
  deriving DecidableEq, Repr

/-- A thread that has not started yet. -/
def initThread : ThreadState := ⟨0, none⟩

/-- One atomic store operation of a cast_vote request (main.py lines
139-170) against the shared collection state. -/
def stepThread (nim cid ts : String) (t : ThreadState) (s : DocState) :
    ThreadState × DocState :=
  match t.pc, t.res with
  | 0, none =>
      match voterLookup s nim with
      | none => (⟨5, some (.error .notEligible)⟩, s)
      | some v =>
          if !(v.eligible.getD true) then (⟨5, some (.error .notEligible)⟩, s)
          else (⟨1, none⟩, s)
  | 1, none =>
      if statusHasVoted s nim then (⟨5, some (.error .alreadyVoted)⟩, s)
      else (⟨2, none⟩, s)
  | 2, none =>
      if !(isValidObjectId cid) then (⟨5, some (.error .invalidInput)⟩, s)
      else
        match candidateLookup s cid with
        | none => (⟨5, some (.error .candidateNotFound)⟩, s)
        | some _ => (⟨3, none⟩, s)
  | 3, none => (⟨4, none⟩, { s with votes := s.votes ++ [⟨cid⟩] })
  | 4, none => (⟨5, some (.ok ())⟩, { s with statuses := upsertStatus s.statuses nim ts })
  | _, _ => (t, s)

/-- Run n store operations of one request in isolation. -/
def runThread (nim cid ts : String) : Nat → ThreadState × DocState → ThreadState × DocState
  | 0, c => c
  | n + 1, c => runThread nim cid ts n (stepThread nim cid ts c.1 c.2)

/-- Two concurrent cast_vote requests over the shared collection state. -/
structure TwoThreads where
  ta : ThreadState
  tb : ThreadState
  s : DocState
  deriving DecidableEq, Repr

/-- Thread identifier for a two-request schedule. -/
inductive Tid where
  | A
  | B
  deriving DecidableEq, Repr

/-- The arguments of one cast_vote request. -/
structure Request where
  nim : String
  cid : String
  ts : String
  deriving DecidableEq, Repr

/-- Let the scheduled thread perform its next atomic store operation. -/
def schedStep (ra rb : Request) (c : TwoThreads) : Tid → TwoThreads
  | .A => let p := stepThread ra.nim ra.cid ra.ts c.ta c.s; ⟨p.1, c.tb, p.2⟩
  | .B => let p := stepThread rb.nim rb.cid rb.ts c.tb c.s; ⟨c.ta, p.1, p.2⟩

/-- Run an interleaving of two concurrent cast_vote requests. -/
def runSched (ra rb : Request) (sched : List Tid) (c : TwoThreads) : TwoThreads :=
  sched.foldl (schedStep ra rb) c

/-- One invocation of a public core operation, for stating properties of
operation sequences. -/
inductive CoreOp where
  | validateOp (nim : String)
  | castOp (nim cid ts : String)
  | tallyOp
  deriving DecidableEq, Repr

/-- The collection state left behind by one operation: validate_voter and
get_results only perform reads (find_one / aggregate) and leave the state
as is; cast_vote leaves the state it returns. -/
def applyOp (s : DocState) : CoreOp → DocState
  | .validateOp _ => s
  | .castOp nim cid ts => (castVote nim cid ts s).1
  | .tallyOp => s

/-- State after a sequence of core operations. -/
def applyOps (s : DocState) (ops : List CoreOp) : DocState := ops.foldl applyOp s

/-- Every value of the dict is zero. -/
def allZero (m : List (String × Nat)) : Prop := ∀ p ∈ m, p.2 = 0

/-- The field values of the serialized Vote document: candidate_id is its
only field (schemas.py, class Vote). -/
def ballotValues (v : Vote) : List String := [v.candidate_id]

/-! Concrete fixtures used by counterexamples and witnesses, matching the
demo seed data of main.py (seed_demo). -/

/-- A valid candidate ObjectId string. -/
def cidA : String := "aaaaaaaaaaaaaaaaaaaaaaaa"

/-- A second valid candidate ObjectId string. -/
def cidB : String := "bbbbbbbbbbbbbbbbbbbbbbbb"

/-- Candidate with ballot number 1. -/
def candA : CandidateDoc := ⟨cidA, 1, "Andi Pratama", "Siti Lestari"⟩

/-- Candidate with ballot number 2. -/
def candB : CandidateDoc := ⟨cidB, 2, "Budi Santoso", "Rina Kartika"⟩

/-- One eligible voter, two candidates, nothing cast yet. -/
def demoState : DocState := ⟨[⟨"20200001", some true⟩], [], [candA, candB], []⟩

/-- All collections empty. -/
def emptyState : DocState := ⟨[], [], [], []⟩

/-- The voter has already voted. -/
def votedState : DocState :=
  ⟨[⟨"20200001", some true⟩], [⟨"20200001", some true, some "t"⟩], [candA], []⟩

/-- Eligible voter but an empty candidate registry. -/
def noCandState : DocState := ⟨[⟨"20200001", some true⟩], [], [], []⟩

/-- The voter document exists but carries no eligible field. -/
def noFlagState : DocState := ⟨[⟨"20200001", none⟩], [], [candA], []⟩

/-- Scenario C of the specification: three ballots for candidate 1, one for
candidate 2. -/
def scenarioCState : DocState :=
  ⟨[], [], [candA, candB], [⟨cidA⟩, ⟨cidA⟩, ⟨cidA⟩, ⟨cidB⟩]⟩

/-- One ballot whose candidate_id references no registered candidate. -/
def orphanState : DocState := ⟨[], [], [candA], [⟨"cccccccccccccccccccccccc"⟩]⟩

/-! Basic lemmas about the embedded operations. -/

/-- An error outcome of cast_vote leaves every collection untouched: all
four HTTPException paths of the handler precede the first write. -/
theorem castVote_state_of_error (nim cid ts : String) (s : DocState) (e : VoteError)
    (h : (castVote nim cid ts s).2 = .error e) : (castVote nim cid ts s).1 = s := by
  unfold castVote at h ⊢
  split at h <;> simp_all
  split at h <;> simp_all
  split at h <;> simp_all
  split at h <;> simp_all
  split at h <;> simp_all

/-- cast_vote succeeds exactly when the voter exists and is eligible, has
not voted, the candidate_id parses as an ObjectId, and the candidate
exists. -/
theorem castVote_ok_iff (nim cid ts : String) (s : DocState) :
    (castVote nim cid ts s).2 = .ok () ↔
      (∃ v, voterLookup s nim = some v ∧ v.eligible.getD true = true) ∧
      statusHasVoted s nim = false ∧
      isValidObjectId cid = true ∧
      (candidateLookup s cid).isSome := by
  unfold castVote
  constructor
  · intro h
    split at h <;> simp_all
    split at h <;> simp_all
    split at h <;> simp_all
    split at h <;> simp_all
    split at h <;> simp_all
  · rintro ⟨⟨v, hv, he⟩, hs, hoid, hc⟩
    rw [hv]
    simp [he, hs, hoid]
    rcases hcl : candidateLookup s cid with _ | c <;> simp_all

/-- On success, cast_vote appends exactly one Vote with the request's
candidate_id and upserts the voter's status, and changes nothing else. -/
theorem castVote_state_of_ok (nim cid ts : String) (s : DocState)
    (h : (castVote nim cid ts s).2 = .ok ()) :
    (castVote nim cid ts s).1 =
      { s with votes := s.votes ++ [⟨cid⟩],
               statuses := upsertStatus s.statuses nim ts } := by
  unfold castVote at h ⊢
  split at h <;> simp_all
  split at h <;> simp_all
  split at h <;> simp_all
  split at h <;> simp_all
  split at h <;> simp_all

/-- After the upsert, the first status document for the written nim has
has_voted true. -/
theorem find?_upsertStatus_self (l : List StatusDoc) (nim ts : String) :
    (upsertStatus l nim ts).find? (fun st => st.nim == nim) =
      some ⟨nim, some true, some ts⟩ := by
  induction l with
  | nil => simp [upsertStatus]
  | cons d ds ih =>
      unfold upsertStatus
      by_cases h : d.nim = nim
      · simp [h]
      · simp [h, List.find?, ih]

/-- The upsert for one nim does not disturb the status lookup of any other
nim. -/
theorem find?_upsertStatus_other (l : List StatusDoc) (nim ts v : String) (hne : v ≠ nim) :
    (upsertStatus l nim ts).find? (fun st => st.nim == v) =
      l.find? (fun st => st.nim == v) := by
  have hnv : (nim == v) = false := by simp; exact fun hh => hne hh.symm
  induction l with
  | nil => simp [upsertStatus, List.find?, hnv]
  | cons d ds ih =>
      unfold upsertStatus
      by_cases h : d.nim = nim
      · simp [h, List.find?, hnv]
      · cases hpd : (d.nim == v) <;> simp [List.find?, hpd, ih, h]

/-- The upserted voter reads back as having voted. -/
theorem statusHasVoted_upsert_self (s : DocState) (l : List StatusDoc) (nim ts : String) :
    statusHasVoted { s with statuses := upsertStatus l nim ts } nim = true := by
  simp [statusHasVoted, find?_upsertStatus_self]

/-- Any other voter's has_voted reading is unchanged by the upsert. -/
theorem statusHasVoted_upsert_other (s0 s1 : DocState) (nim ts v : String)
    (hne : v ≠ nim) (h : s1.statuses = upsertStatus s0.statuses nim ts) :
    statusHasVoted s1 v = statusHasVoted s0 v := by
  simp [statusHasVoted, h, find?_upsertStatus_other _ _ _ _ hne]

/-- Running the five store operations of one request in isolation is the
sequential cast_vote: the fine-grained machine refines the handler. -/
theorem runThread_eq_castVote (nim cid ts : String) (s : DocState) :
    runThread nim cid ts 5 (initThread, s) =
      (⟨5, some (castVote nim cid ts s).2⟩, (castVote nim cid ts s).1) := by
  unfold castVote initThread
  rcases hv : voterLookup s nim with _ | v
  · simp [runThread, stepThread, hv]
  · by_cases he : v.eligible.getD true
    · by_cases hs : statusHasVoted s nim
      · simp [runThread, stepThread, hv, he, hs]
      · by_cases hoid : isValidObjectId cid
        · rcases hc : candidateLookup s cid with _ | c
          · simp [runThread, stepThread, hv, he, hs, hoid, hc]
          · simp [runThread, stepThread, hv, he, hs, hoid, hc]
        · simp [runThread, stepThread, hv, he, hs, hoid]
    · simp [runThread, stepThread, hv, he]

/-! Dictionary lemmas for the counts_map of get_results. -/

/-- Reading back the key just written. -/
theorem dlookup_dinsert_self (m : List (String × Nat)) (k : String) (v : Nat) :
    dlookup (dinsert m k v) k = some v := by
  induction m with
  | nil => simp [dinsert, dlookup]
  | cons p ps ih =>
      unfold dinsert
      by_cases h : p.1 = k
      · simp [h, dlookup]
      · simp [h, dlookup, ih]

/-- Writing one key leaves every other key's value alone. -/
theorem dlookup_dinsert_other (m : List (String × Nat)) (k k' : String) (v : Nat)
    (hne : k' ≠ k) : dlookup (dinsert m k v) k' = dlookup m k' := by
  induction m with
  | nil => simp [dinsert, dlookup]; exact fun h => hne h.symm
  | cons p ps ih =>
      unfold dinsert
      by_cases h : p.1 = k
      · have : (k == k') = false := by simp; exact fun hh => hne hh.symm
        simp [h, dlookup, this]
      · by_cases h2 : p.1 = k' <;> simp [h, h2, hne, dlookup, ih]

/-- Writing v over a key whose current value is zero or absent raises the
value sum by exactly v. -/
theorem valsum_dinsert_fresh (m : List (String × Nat)) (k : String) (v : Nat)
    (h : dlookup m k = some 0 ∨ dlookup m k = none) :
    valsum (dinsert m k v) = valsum m + v := by
  induction m with
  | nil => simp [dinsert, valsum]
  | cons p ps ih =>
      unfold dinsert
      by_cases hp : p.1 = k
      · rcases h with h | h
        · have : p.2 = 0 := by simpa [dlookup, hp] using h
          simp [hp, valsum, this]
          omega
        · exfalso
          simp [dlookup, hp] at h
      · have h' : dlookup ps k = some 0 ∨ dlookup ps k = none := by
          simpa [dlookup, hp] using h
        simp [hp, valsum] at ih ⊢
        rw [ih h']
        omega

/-- Any single stored value is at most the sum of all values. -/
theorem dlookup_le_valsum (m : List (String × Nat)) (k : String) (w : Nat)
    (h : dlookup m k = some w) : w ≤ valsum m := by
  induction m with
  | nil => simp [dlookup] at h
  | cons p ps ih =>
      unfold dlookup at h
      by_cases hp : p.1 = k
      · simp [hp] at h
        simp [valsum]
        omega
      · simp [hp] at h
        have := ih h
        simp [valsum] at this ⊢
        omega

/-- Value of any key after the seeding fold of counts_map. -/
theorem dlookup_foldl_seed (cands : List CandidateDoc) (m : List (String × Nat)) (k : String) :
    dlookup (cands.foldl (fun m c => dinsert m c.id 0) m) k =
      if k ∈ cands.map CandidateDoc.id then some 0 else dlookup m k := by
  induction cands generalizing m with
  | nil => simp
  | cons c rest ih =>
      simp only [List.foldl_cons, ih, List.map_cons, List.mem_cons]
      by_cases hk : k ∈ rest.map CandidateDoc.id
      · simp [hk]
      · by_cases hc : k = c.id
        · simp [hk, hc, dlookup_dinsert_self]
        · simp [hk, hc, dlookup_dinsert_other _ _ _ _ hc]

/-- Value of any key after folding the aggregation groups into the dict. -/
theorem dlookup_foldl_groups (f : String → Nat) (gs : List String)
    (m : List (String × Nat)) (k : String) :
    dlookup (gs.foldl (fun m g => dinsert m g (f g)) m) k =
      if k ∈ gs then some (f k) else dlookup m k := by
  induction gs generalizing m with
  | nil => simp
  | cons g rest ih =>
      simp only [List.foldl_cons, ih, List.mem_cons]
      by_cases hk : k ∈ rest
      · simp [hk]
      · by_cases hg : k = g
        · subst hg
          simp [hk, dlookup_dinsert_self]
        · simp [hk, hg, dlookup_dinsert_other _ _ _ _ hg]

/-- Folding the groups of distinct keys into a dict of zeros adds exactly
the group counts to the value sum. -/
theorem valsum_foldl_groups (f : String → Nat) (gs : List String)
    (m : List (String × Nat)) (hnd : gs.Nodup)
    (h0 : ∀ g ∈ gs, dlookup m g = some 0 ∨ dlookup m g = none) :
    valsum (gs.foldl (fun m g => dinsert m g (f g)) m) = valsum m + (gs.map f).sum := by
  induction gs generalizing m with
  | nil => simp
  | cons g rest ih =>
      simp only [List.foldl_cons, List.map_cons, List.sum_cons]
      have hg := h0 g (List.mem_cons_self g rest)
      have hrest : ∀ g' ∈ rest, dlookup (dinsert m g (f g)) g' = some 0 ∨
          dlookup (dinsert m g (f g)) g' = none := by
        intro g' hg'
        have hne : g' ≠ g := by
          rintro rfl
          exact (List.nodup_cons.1 hnd).1 hg'
        rw [dlookup_dinsert_other _ _ _ _ hne]
        exact h0 g' (List.mem_cons_of_mem _ hg')
      rw [ih _ (List.Nodup.of_cons hnd) hrest, valsum_dinsert_fresh _ _ _ hg]
      omega

/-- dinsert of a zero preserves the all-zero property. -/
theorem allZero_dinsert (m : List (String × Nat)) (k : String)
    (h : allZero m) : allZero (dinsert m k 0) := by
  induction m with
  | nil => intro p hp; simp [dinsert] at hp; simp [hp]
  | cons q qs ih =>
      unfold dinsert
      by_cases hq : q.1 = k
      · intro p hp
        simp [hq] at hp
        rcases hp with hp | hp
        · simp [hp]
        · exact h p (List.mem_cons_of_mem _ hp)
      · intro p hp
        simp [hq] at hp
        rcases hp with hp | hp
        · exact h p (hp ▸ List.mem_cons_self q qs)
        · exact ih (fun r hr => h r (List.mem_cons_of_mem _ hr)) p hp

/-- The seeding fold only writes zeros. -/
theorem allZero_foldl_seed (cands : List CandidateDoc) (m : List (String × Nat))
    (h : allZero m) : allZero (cands.foldl (fun m c => dinsert m c.id 0) m) := by
  induction cands generalizing m with
  | nil => exact h
  | cons c rest ih => exact ih _ (allZero_dinsert _ _ h)

/-- A dict of zeros sums to zero. -/
theorem valsum_of_allZero (m : List (String × Nat)) (h : allZero m) : valsum m = 0 := by
  induction m with
  | nil => rfl
  | cons p ps ih =>
      simp [valsum]
      refine ⟨h p (List.mem_cons_self p ps), ?_⟩
      have := ih (fun r hr => h r (List.mem_cons_of_mem _ hr))
      simpa [valsum] using this

/-- In a dict of zeros every lookup is zero or absent. -/
theorem dlookup_of_allZero (m : List (String × Nat)) (k : String) (h : allZero m) :
    dlookup m k = some 0 ∨ dlookup m k = none := by
  induction m with
  | nil => simp [dlookup]
  | cons p ps ih =>
      unfold dlookup
      by_cases hp : p.1 = k
      · simp [hp]
        exact h p (List.mem_cons_self p ps)
      · simp [hp]
        exact ih (fun r hr => h r (List.mem_cons_of_mem _ hr))

/-- Closed form of counts_map: group count for a candidate_id occurring in
the votes, zero for any other registered candidate, absent otherwise. -/
theorem dlookup_countsMap (s : DocState) (k : String) :
    dlookup (countsMap s) k =
      if k ∈ voteCids s then some (countVotes s k)
      else if k ∈ s.candidates.map CandidateDoc.id then some 0 else none := by
  unfold countsMap
  rw [dlookup_foldl_groups, dlookup_foldl_seed]
  simp [List.mem_dedup, dlookup]

/-- Sums of pointwise sums of two maps split. -/
theorem sum_map_add (K : List String) (f g : String → Nat) :
    (K.map (fun a => f a + g a)).sum = (K.map f).sum + (K.map g).sum := by
  induction K with
  | nil => rfl
  | cons a rest ih => simp [ih]; omega

/-- Over a duplicate-free key list, the indicator of one value sums to its
membership. -/
theorem sum_ite_eq_mem (K : List String) (x : String) (hnd : K.Nodup) :
    (K.map (fun g => if x = g then 1 else 0)).sum = if x ∈ K then 1 else 0 := by
  induction K with
  | nil => simp
  | cons a rest ih =>
      rcases List.nodup_cons.1 hnd with ⟨ha, hrest⟩
      by_cases hx : x = a
      · subst hx
        have h0 : (rest.map (fun g => if x = g then 1 else 0)).sum = 0 := by
          rw [ih hrest]
          simp [ha]
        simp [h0]
      · simp [hx, ih hrest]

/-- Summing the per-group multiplicities over a duplicate-free group list
counts exactly the list elements belonging to one of the groups. -/
theorem sum_filter_counts (l K : List String) (hnd : K.Nodup) :
    (K.map (fun g => (l.filter (fun x => x == g)).length)).sum
      = (l.filter (fun x => K.contains x)).length := by
  induction l with
  | nil => simp
  | cons x l2 ih =>
      have hsplit : ∀ g : String, ((x :: l2).filter (fun y => y == g)).length
          = (if x = g then 1 else 0) + (l2.filter (fun y => y == g)).length := by
        intro g
        by_cases h : x = g <;> simp [List.filter_cons, h, Nat.add_comm]
      simp only [hsplit]
      rw [sum_map_add, sum_ite_eq_mem _ _ hnd, ih]
      by_cases hx : x ∈ K <;> simp [List.filter_cons, hx, List.elem_iff, Nat.add_comm]

/-- The total_votes of get_results is the full size of the vote collection,
orphan ballots included. -/
theorem totalVotes_eq_length (s : DocState) :
    valsum (countsMap s) = s.votes.length := by
  have hz : allZero (s.candidates.foldl (fun m c => dinsert m c.id 0) []) :=
    allZero_foldl_seed _ _ (by intro p hp; simp at hp)
  unfold countsMap
  rw [valsum_foldl_groups _ _ _ (List.nodup_dedup _)
      (fun g _ => dlookup_of_allZero _ _ hz)]
  rw [valsum_of_allZero _ hz]
  have := sum_filter_counts (voteCids s) (voteCids s).dedup (List.nodup_dedup _)
  unfold countVotes
  rw [this]
  have hall : (voteCids s).filter (fun x => (voteCids s).dedup.contains x) = voteCids s := by
    rw [List.filter_eq_self]
    intro a ha
    simp [List.elem_iff, List.mem_dedup]
    exact ha
  rw [hall]
  simp [voteCids]

/-- Membership in the results list is membership in the per-candidate item
list, the sort being a permutation. -/
theorem mem_results_iff (s : DocState) (i : ResultsItem) :
    i ∈ (getResults s).results ↔ ∃ c ∈ s.candidates, i = resultItem s c := by
  unfold getResults
  rw [(List.perm_insertionSort (fun a b : ResultsItem => a.number ≤ b.number) _).mem_iff]
  simp [List.mem_map, eq_comm]

/-- A candidate_id that occurs in no vote has group count zero. -/
theorem countVotes_eq_zero_of_not_mem (s : DocState) (k : String)
    (h : k ∉ voteCids s) : countVotes s k = 0 := by
  unfold countVotes
  rw [List.length_eq_zero]
  rw [List.filter_eq_nil_iff]
  intro a ha
  simp
  rintro rfl
  exact h ha

/-- For a registered candidate the reported count is its group count. -/
theorem resultItem_count (s : DocState) (c : CandidateDoc)
    (hc : c.id ∈ s.candidates.map CandidateDoc.id) :
    (resultItem s c).count = countVotes s c.id := by
  show (dlookup (countsMap s) c.id).getD 0 = _
  rw [dlookup_countsMap]
  by_cases hk : c.id ∈ voteCids s
  · simp [hk]
  · simp [hk, hc, countVotes_eq_zero_of_not_mem s c.id hk]

/-- With duplicate-free candidate ids, the counts of the returned rows sum
to the number of ballots referencing a registered candidate. -/
theorem sum_result_counts (s : DocState)
    (hnd : (s.candidates.map CandidateDoc.id).Nodup) :
    ((getResults s).results.map ResultsItem.count).sum
      = (s.votes.filter
          (fun v => (s.candidates.map CandidateDoc.id).contains v.candidate_id)).length := by
  unfold getResults
  have hperm : List.Perm
      (((s.candidates.map (resultItem s)).insertionSort
          (fun a b : ResultsItem => a.number ≤ b.number)).map ResultsItem.count)
      ((s.candidates.map (resultItem s)).map ResultsItem.count) :=
    (List.perm_insertionSort _ _).map _
  rw [hperm.sum_eq]
  rw [List.map_map]
  have hcong : s.candidates.map (ResultsItem.count ∘ resultItem s)
      = s.candidates.map (fun c => countVotes s c.id) := by
    apply List.map_congr_left
    intro c hc
    exact resultItem_count s c (List.mem_map_of_mem _ hc)
  rw [hcong]
  have hmm : s.candidates.map (fun c => countVotes s c.id)
      = (s.candidates.map CandidateDoc.id).map (fun k => countVotes s k) := by
    rw [List.map_map]
    rfl
  rw [hmm]
  unfold countVotes
  rw [sum_filter_counts _ _ hnd]
  unfold voteCids
  rw [List.filter_map, List.length_map]
  rfl

/-! Bounds for the round-half-even rounding. -/

/-- Rat.floor is the floor. -/
theorem rat_floor_eq (q : ℚ) : Rat.floor q = ⌊q⌋ :=
  (Rat.floor_def' q).trans Rat.floor_def.symm

/-- Rounding keeps nonnegative values nonnegative. -/
theorem rhe_nonneg (x : ℚ) (h : 0 ≤ x) : 0 ≤ rhe x := by
  have hn : (0:ℤ) ≤ Rat.floor x := by
    rw [rat_floor_eq]
    exact Int.floor_nonneg.mpr h
  unfold rhe
  split
  · exact hn
  · split
    · omega
    · split <;> omega

/-- Rounding never exceeds an integer upper bound of the argument. -/
theorem rhe_le_of_le (x : ℚ) (c : ℤ) (h : x ≤ (c:ℚ)) : rhe x ≤ c := by
  have hfl : Rat.floor x ≤ c := by
    rw [rat_floor_eq]
    have h2 := Int.floor_le_floor (α := ℚ) h
    simpa using h2
  have hstep : ¬(x - (Rat.floor x : ℚ) < 1/2) → Rat.floor x + 1 ≤ c := by
    intro hr
    rcases lt_or_eq_of_le hfl with hlt | heq
    · omega
    · exfalso
      apply hr
      have hle : x - (Rat.floor x : ℚ) ≤ 0 := by
        have : (Rat.floor x : ℚ) = (c : ℚ) := by rw [heq]
        linarith
      linarith
  unfold rhe
  split
  · exact hfl
  · rename_i hr1
    split
    · exact hstep hr1
    · split
      · exact hfl
      · exact hstep hr1

/-- round(0.0, 2) is 0. -/
theorem pyRound2_zero : pyRound2 0 = 0 := by
  have h0 : rhe 0 = 0 := by
    unfold rhe
    norm_num [rat_floor_eq]
  unfold pyRound2
  rw [show (0:ℚ) * 100 = 0 by ring, h0]
  norm_num

/-- Two-decimal rounding keeps nonnegative values nonnegative. -/
theorem pyRound2_nonneg (x : ℚ) (h : 0 ≤ x) : 0 ≤ pyRound2 x := by
  unfold pyRound2
  have hr := rhe_nonneg (x * 100) (by linarith)
  have : (0:ℚ) ≤ (rhe (x * 100) : ℚ) := by exact_mod_cast hr
  positivity

/-- Two-decimal rounding of a value at most 100 stays at most 100. -/
theorem pyRound2_le_100 (x : ℚ) (h : x ≤ 100) : pyRound2 x ≤ 100 := by
  unfold pyRound2
  have hr := rhe_le_of_le (x * 100) 10000 (by push_cast; linarith)
  have hq : (rhe (x * 100) : ℚ) ≤ 10000 := by exact_mod_cast hr
  rw [div_le_iff₀ (by norm_num : (0:ℚ) < 100)]
  linarith

/-- A row's count never exceeds the reported total. -/
theorem resultItem_count_le_total (s : DocState) (c : CandidateDoc) :
    (resultItem s c).count ≤ valsum (countsMap s) := by
  show (dlookup (countsMap s) c.id).getD 0 ≤ _
  rcases h : dlookup (countsMap s) c.id with _ | w
  · simp
  · simpa using dlookup_le_valsum _ _ _ h

/-- Every reported percentage lies between 0 and 100. -/
theorem resultItem_percentage_bounds (s : DocState) (c : CandidateDoc) :
    0 ≤ (resultItem s c).percentage ∧ (resultItem s c).percentage ≤ 100 := by
  show 0 ≤ pyRound2 _ ∧ pyRound2 _ ≤ 100
  by_cases h : 0 < valsum (countsMap s)
  · have hcnt : ((resultItem s c).count : ℚ) ≤ (valsum (countsMap s) : ℚ) := by
      exact_mod_cast resultItem_count_le_total s c
    have htot : (0:ℚ) < (valsum (countsMap s) : ℚ) := by exact_mod_cast h
    have hraw0 : (0:ℚ) ≤ ((resultItem s c).count : ℚ) / (valsum (countsMap s) : ℚ) * 100 := by
      positivity
    have hraw100 : ((resultItem s c).count : ℚ) / (valsum (countsMap s) : ℚ) * 100 ≤ 100 := by
      have hdiv : ((resultItem s c).count : ℚ) / (valsum (countsMap s) : ℚ) ≤ 1 :=
        (div_le_one htot).mpr hcnt
      linarith
    simp only [h, if_true]
    exact ⟨pyRound2_nonneg _ hraw0, pyRound2_le_100 _ hraw100⟩
  · simp only [h, if_false]
    rw [pyRound2_zero]
    norm_num

/-- With no ballots at all every percentage is 0. -/
theorem resultItem_percentage_zero (s : DocState) (c : CandidateDoc)
    (h : valsum (countsMap s) = 0) : (resultItem s c).percentage = 0 := by
  show pyRound2 _ = 0
  rw [h]
  simp [pyRound2_zero]

/-! The claims. -/

/-- C1.  The claim asserts that among concurrent castVote invocations for
one eligible, not-yet-voted voter exactly one succeeds, the others fail
with AlreadyVoted, and exactly one ballot is appended, the status check
and write being one indivisible operation.  The handler instead reads the
status and writes it in two separate store operations: under the
alternating schedule both requests for voter 20200001 read has_voted=false
before either writes, both report success, and two ballots are appended
for that single voter. -/
theorem castVote_race_double_ballot :
    (runSched ⟨"20200001", cidA, "t0"⟩ ⟨"20200001", cidB, "t1"⟩
        [.A, .B, .A, .B, .A, .B, .A, .B, .A, .B]
        ⟨initThread, initThread, demoState⟩).ta.res = some (.ok ()) ∧
    (runSched ⟨"20200001", cidA, "t0"⟩ ⟨"20200001", cidB, "t1"⟩
        [.A, .B, .A, .B, .A, .B, .A, .B, .A, .B]
        ⟨initThread, initThread, demoState⟩).tb.res = some (.ok ()) ∧
    (runSched ⟨"20200001", cidA, "t0"⟩ ⟨"20200001", cidB, "t1"⟩
        [.A, .B, .A, .B, .A, .B, .A, .B, .A, .B]
        ⟨initThread, initThread, demoState⟩).s.votes = [⟨cidA⟩, ⟨cidB⟩] := by
  decide

/-- C2 counterexample.  The claim asserts the execution never reaches the
ballot append without the status transition having already succeeded.  In
the handler the ballot insert is the fourth store operation and the status
write the fifth: after four operations the request for voter 20200001 has
appended its ballot (pc now at the status write, no outcome reported yet)
while the voter still reads as not having voted. -/
theorem castVote_append_before_status_cex :
    (runThread "20200001" cidA "t0" 4 (initThread, demoState)).1.pc = 4 ∧
    (runThread "20200001" cidA "t0" 4 (initThread, demoState)).1.res = none ∧
    (runThread "20200001" cidA "t0" 4 (initThread, demoState)).2.votes = [⟨cidA⟩] ∧
    statusHasVoted (runThread "20200001" cidA "t0" 4 (initThread, demoState)).2 "20200001"
      = false := by
  decide

/-- C2 amended.  In castVote the ballot append precedes the status
transition: through the first four store operations the voterstatus
collection is never written, and any execution that reaches the status
write has already appended the ballot; a failure after the append would
therefore leave a recorded ballot with the voter still not marked as
voted. -/
theorem castVote_append_precedes_status (nim cid ts : String) (s : DocState) :
    (runThread nim cid ts 4 (initThread, s)).2.statuses = s.statuses ∧
    ((runThread nim cid ts 4 (initThread, s)).1.pc = 4 →
      (runThread nim cid ts 4 (initThread, s)).2.votes = s.votes ++ [⟨cid⟩]) := by
  unfold initThread
  rcases hv : voterLookup s nim with _ | v
  · simp [runThread, stepThread, hv]
  · by_cases he : v.eligible.getD true
    · by_cases hs : statusHasVoted s nim
      · simp [runThread, stepThread, hv, he, hs]
      · by_cases hoid : isValidObjectId cid
        · rcases hc : candidateLookup s cid with _ | c
          · simp [runThread, stepThread, hv, he, hs, hoid, hc]
          · simp [runThread, stepThread, hv, he, hs, hoid, hc]
        · simp [runThread, stepThread, hv, he, hs, hoid]
    · simp [runThread, stepThread, hv, he]

/-- C2 witness: the amended theorem applied to the demo state. -/
theorem castVote_append_precedes_status_witness :
    (runThread "20200001" cidA "t0" 4 (initThread, demoState)).2.statuses
      = demoState.statuses ∧
    (runThread "20200001" cidA "t0" 4 (initThread, demoState)).2.votes
      = demoState.votes ++ [⟨cidA⟩] :=
  ⟨(castVote_append_precedes_status "20200001" cidA "t0" demoState).1,
   (castVote_append_precedes_status "20200001" cidA "t0" demoState).2 (by decide)⟩

/-- C3.  A successful castVote appends exactly the ballot with the
request's candidate_id: the appended record does not depend on the voter
identifier, two runs differing only in voterId append identical ballot
records, and no field value of the serialized ballot can equal any
well-formed voter identifier, because a stored candidate_id is a
24-character ObjectId string while voter identifiers have at most 20
characters. -/
theorem castVote_ballot_anonymous (nim nim2 cid ts : String) (s : DocState)
    (h : (castVote nim cid ts s).2 = .ok ()) :
    (castVote nim cid ts s).1.votes = s.votes ++ [⟨cid⟩] ∧
    ((castVote nim2 cid ts s).2 = .ok () →
      (castVote nim2 cid ts s).1.votes = (castVote nim cid ts s).1.votes) ∧
    (∀ vid : String, vid.length ≤ 20 → ∀ x ∈ ballotValues ⟨cid⟩, x ≠ vid) := by
  refine ⟨?_, ?_, ?_⟩
  · rw [castVote_state_of_ok _ _ _ _ h]
  · intro h2
    rw [castVote_state_of_ok _ _ _ _ h2, castVote_state_of_ok _ _ _ _ h]
  · intro vid hlen x hx
    have hoid : isValidObjectId cid = true := ((castVote_ok_iff nim cid ts s).1 h).2.2.1
    have hlen24 : cid.length = 24 := by
      unfold isValidObjectId at hoid
      simp at hoid
      exact hoid.1
    simp [ballotValues] at hx
    subst hx
    intro hEq
    rw [hEq] at hlen24
    omega

/-- C3 witness: two successful casts for voters 20200001 and 20200002 on
the demo state. -/
theorem castVote_ballot_anonymous_witness :
    (castVote "20200001" cidA "t0" demoState).1.votes = demoState.votes ++ [⟨cidA⟩] ∧
    ((castVote "20200002" cidA "t0" demoState).2 = .ok () →
      (castVote "20200002" cidA "t0" demoState).1.votes =
        (castVote "20200001" cidA "t0" demoState).1.votes) ∧
    (∀ vid : String, vid.length ≤ 20 → ∀ x ∈ ballotValues ⟨cidA⟩, x ≠ vid) :=
  castVote_ballot_anonymous "20200001" "20200002" cidA "t0" demoState (by decide)

/-- C5 counterexample.  The claim asserts candidate resolution precedes the
eligibility check, so an absent candidate yields CandidateNotFound even
for an unknown voter.  On the empty state (candidate absent, voter
unknown) the handler instead answers NotEligible. -/
theorem castVote_order_cex :
    (castVote "20200001" cidA "t0" emptyState).2 = .error .notEligible ∧
    (castVote "20200001" cidA "t0" emptyState).2 ≠ .error .candidateNotFound := by
  decide

/-- C5 amended.  The handler checks in the order eligibility, then vote
status, then candidate: an unknown or ineligible voter gets NotEligible
regardless of the candidate; an eligible voter who has voted gets
AlreadyVoted regardless of the candidate; CandidateNotFound arises only
for an eligible, not-yet-voted voter whose well-formed candidate reference
is absent from the registry. -/
theorem castVote_check_order (nim cid ts : String) (s : DocState) :
    ((voterLookup s nim = none ∨
        (∃ v, voterLookup s nim = some v ∧ v.eligible.getD true = false)) →
      (castVote nim cid ts s).2 = .error .notEligible) ∧
    ((∃ v, voterLookup s nim = some v ∧ v.eligible.getD true = true) →
      statusHasVoted s nim = true →
      (castVote nim cid ts s).2 = .error .alreadyVoted) ∧
    ((∃ v, voterLookup s nim = some v ∧ v.eligible.getD true = true) →
      statusHasVoted s nim = false → isValidObjectId cid = true →
      candidateLookup s cid = none →
      (castVote nim cid ts s).2 = .error .candidateNotFound) := by
  refine ⟨?_, ?_, ?_⟩ <;> unfold castVote
  · rintro (h | ⟨v, hv, he⟩)
    · rw [h]
    · rw [hv]; simp [he]
  · rintro ⟨v, hv, he⟩ hs
    rw [hv]; simp [he, hs]
  · rintro ⟨v, hv, he⟩ hs hoid hc
    rw [hv]; simp [he, hs, hoid, hc]

/-- C5 witness: the three precedence branches at concrete states. -/
theorem castVote_check_order_witness :
    (castVote "20200001" cidA "t0" emptyState).2 = .error .notEligible ∧
    (castVote "20200001" cidA "t0" votedState).2 = .error .alreadyVoted ∧
    (castVote "20200001" cidA "t0" noCandState).2 = .error .candidateNotFound :=
  ⟨(castVote_check_order "20200001" cidA "t0" emptyState).1 (Or.inl (by decide)),
   (castVote_check_order "20200001" cidA "t0" votedState).2.1
     ⟨⟨"20200001", some true⟩, by decide, by decide⟩ (by decide),
   (castVote_check_order "20200001" cidA "t0" noCandState).2.2
     ⟨⟨"20200001", some true⟩, by decide, by decide⟩ (by decide) (by decide) (by decide)⟩

/-- C6 counterexample.  The claim asserts a malformed candidate reference
fails with InvalidInput before touching storage.  The string zz is not a
valid ObjectId, yet for an unknown voter the handler answers NotEligible,
not InvalidInput: the voter and status stores are consulted before the
candidate reference is ever parsed. -/
theorem castVote_malformed_cex :
    isValidObjectId "zz" = false ∧
    (castVote "20200001" "zz" "t0" emptyState).2 = .error .notEligible ∧
    (castVote "20200001" "zz" "t0" emptyState).2 ≠ .error .invalidInput := by
  decide

/-- C6 amended.  A malformed candidate reference is rejected with
InvalidInput and without any write only for an eligible, not-yet-voted
voter, because the handler parses the candidate reference only after the
voter and status reads; for an unknown voter the eligibility failure takes
precedence. -/
theorem castVote_malformed_after_reads (nim cid ts : String) (s : DocState)
    (hbad : isValidObjectId cid = false) :
    ((∃ v, voterLookup s nim = some v ∧ v.eligible.getD true = true) →
      statusHasVoted s nim = false →
      castVote nim cid ts s = (s, .error .invalidInput)) ∧
    (voterLookup s nim = none →
      castVote nim cid ts s = (s, .error .notEligible)) := by
  constructor <;> unfold castVote
  · rintro ⟨v, hv, he⟩ hs
    rw [hv]; simp [he, hs, hbad]
  · intro h; rw [h]

/-- C6 witness: the malformed reference zz for an eligible voter and for an
unknown voter. -/
theorem castVote_malformed_after_reads_witness :
    (castVote "20200001" "zz" "t0" noCandState = (noCandState, .error .invalidInput)) ∧
    (castVote "20200001" "zz" "t0" emptyState = (emptyState, .error .notEligible)) :=
  ⟨(castVote_malformed_after_reads "20200001" "zz" "t0" noCandState (by decide)).1
     ⟨⟨"20200001", some true⟩, by decide, by decide⟩ (by decide),
   (castVote_malformed_after_reads "20200001" "zz" "t0" emptyState (by decide)).2 (by decide)⟩

/-- C7.  A castVote call failing with CandidateNotFound or NotEligible
leaves every collection unchanged: no ballot is created and no status
record is flipped. -/
theorem castVote_failure_no_mutation (nim cid ts : String) (s : DocState)
    (h : (castVote nim cid ts s).2 = .error .candidateNotFound ∨
         (castVote nim cid ts s).2 = .error .notEligible) :
    (castVote nim cid ts s).1.votes = s.votes ∧
    (castVote nim cid ts s).1.statuses = s.statuses := by
  rcases h with h | h <;> rw [castVote_state_of_error _ _ _ _ _ h] <;> exact ⟨rfl, rfl⟩

/-- C7 witness: a vote for an absent candidate changes nothing. -/
theorem castVote_failure_no_mutation_witness :
    (castVote "20200001" cidA "t0" noCandState).1.votes = noCandState.votes ∧
    (castVote "20200001" cidA "t0" noCandState).1.statuses = noCandState.statuses :=
  castVote_failure_no_mutation _ _ _ _ (Or.inl (by decide))

/-- C8.  Once a voter reads as having voted, no sequence of core operations
(validate, castVote, tally) ever reverts it: the only write to the status
collection is the upsert setting has_voted to true. -/
theorem hasVoted_monotone (ops : List CoreOp) (s : DocState) (v : String)
    (h : statusHasVoted s v = true) : statusHasVoted (applyOps s ops) v = true := by
  induction ops generalizing s with
  | nil => exact h
  | cons op rest ih =>
      refine ih (applyOp s op) ?_
      cases op with
      | validateOp _ => exact h
      | tallyOp => exact h
      | castOp nim cid ts =>
          rcases hres : (castVote nim cid ts s).2 with e | u
          · simpa [applyOp, castVote_state_of_error _ _ _ _ _ hres] using h
          · cases u
            have hst := castVote_state_of_ok _ _ _ _ hres
            simp only [applyOp]
            rw [hst]
            by_cases hv : v = nim
            · subst hv
              exact statusHasVoted_upsert_self { s with votes := s.votes ++ [⟨cid⟩] } s.statuses v ts
            · rw [statusHasVoted_upsert_other s _ nim ts v hv rfl]
              exact h

/-- C8 witness: a voted voter stays voted across casts, validates and
tallies. -/
theorem hasVoted_monotone_witness :
    statusHasVoted
      (applyOps votedState
        [.castOp "20200001" cidA "t1", .validateOp "20200001", .tallyOp,
         .castOp "20200002" cidA "t2"]) "20200001" = true :=
  hasVoted_monotone _ votedState "20200001" (by decide)

/-- C10.  A voter document that exists but lacks the eligible flag passes
the eligibility check (voter.get defaults the flag to true) and can cast a
vote, in contrast to the fail-closed rejection of a wholly absent voter
document. -/
theorem castVote_missing_eligible_flag (nim cid ts : String) (s : DocState) (v : VoterDoc)
    (hv : voterLookup s nim = some v) (hnone : v.eligible = none)
    (hs : statusHasVoted s nim = false) (hoid : isValidObjectId cid = true)
    (hc : (candidateLookup s cid).isSome) :
    (castVote nim cid ts s).2 = .ok () ∧
    (∀ s2 : DocState, voterLookup s2 nim = none →
      (castVote nim cid ts s2).2 = .error .notEligible) := by
  constructor
  · rw [castVote_ok_iff]
    exact ⟨⟨v, hv, by simp [hnone]⟩, hs, hoid, hc⟩
  · intro s2 h2
    unfold castVote
    rw [h2]

/-- C10 witness: the flagless voter state. -/
theorem castVote_missing_eligible_flag_witness :
    (castVote "20200001" cidA "t0" noFlagState).2 = .ok () ∧
    (∀ s2 : DocState, voterLookup s2 "20200001" = none →
      (castVote "20200001" cidA "t0" s2).2 = .error .notEligible) :=
  castVote_missing_eligible_flag _ _ _ _ ⟨"20200001", none⟩
    (by decide) (by decide) (by decide) (by decide) (by decide)

/-- C4 counterexample.  The claim asserts that the counts of the returned
rows always sum to the reported total, even for states with ballots whose
candidate no longer exists.  With one registered candidate and one orphan
ballot, get_results reports total 1 while the returned counts sum to 0:
the aggregation row of the orphan ballot enters the totals dict but no
returned row. -/
theorem tally_orphan_cex :
    (getResults orphanState).total_votes = 1 ∧
    ((getResults orphanState).results.map ResultsItem.count).sum = 0 := by
  decide

/-- C4 amended.  For duplicate-free candidate ids: the reported total is
the full ballot count (orphans included); the returned counts sum to the
number of ballots referencing a registered candidate, hence they equal the
total exactly when every ballot references a registered candidate; with
total 0 every percentage is 0; and every percentage lies in the closed
interval from 0 to 100. -/
theorem tally_invariants (s : DocState)
    (hnd : (s.candidates.map CandidateDoc.id).Nodup) :
    (getResults s).total_votes = s.votes.length ∧
    ((getResults s).results.map ResultsItem.count).sum
      = (s.votes.filter
          (fun v => (s.candidates.map CandidateDoc.id).contains v.candidate_id)).length ∧
    ((∀ v ∈ s.votes, (s.candidates.map CandidateDoc.id).contains v.candidate_id) →
      ((getResults s).results.map ResultsItem.count).sum = (getResults s).total_votes) ∧
    ((getResults s).total_votes = 0 → ∀ i ∈ (getResults s).results, i.percentage = 0) ∧
    (∀ i ∈ (getResults s).results, 0 ≤ i.percentage ∧ i.percentage ≤ 100) := by
  refine ⟨totalVotes_eq_length s, sum_result_counts s hnd, ?_, ?_, ?_⟩
  · intro hall
    rw [sum_result_counts s hnd]
    have heq : s.votes.filter
        (fun v => (s.candidates.map CandidateDoc.id).contains v.candidate_id) = s.votes :=
      List.filter_eq_self.mpr hall
    rw [heq]
    exact (totalVotes_eq_length s).symm
  · intro h0 i hi
    rcases (mem_results_iff s i).1 hi with ⟨c, hc, rfl⟩
    exact resultItem_percentage_zero s c h0
  · intro i hi
    rcases (mem_results_iff s i).1 hi with ⟨c, hc, rfl⟩
    exact resultItem_percentage_bounds s c

/-- C4 witness: the invariants at the four-ballot scenario state. -/
theorem tally_invariants_witness :
    (getResults scenarioCState).total_votes = scenarioCState.votes.length ∧
    ((getResults scenarioCState).results.map ResultsItem.count).sum
      = (scenarioCState.votes.filter
          (fun v => (scenarioCState.candidates.map CandidateDoc.id).contains
            v.candidate_id)).length ∧
    ((∀ v ∈ scenarioCState.votes,
        (scenarioCState.candidates.map CandidateDoc.id).contains v.candidate_id) →
      ((getResults scenarioCState).results.map ResultsItem.count).sum
        = (getResults scenarioCState).total_votes) ∧
    ((getResults scenarioCState).total_votes = 0 →
      ∀ i ∈ (getResults scenarioCState).results, i.percentage = 0) ∧
    (∀ i ∈ (getResults scenarioCState).results,
      0 ≤ i.percentage ∧ i.percentage ≤ 100) :=
  tally_invariants scenarioCState (by decide)

/-- C9.  Every returned row's percentage is 0 when the reported total is 0,
and otherwise is count divided by total, times 100, rounded independently
to two decimal places with no renormalization; and on the concrete
scenario with three ballots for candidate 1 and one for candidate 2,
get_results returns counts 3 and 1 with percentages 75 and 25 and
total 4, ordered by ballot number. -/
theorem tally_percentage_formula :
    (∀ s : DocState, ∀ i ∈ (getResults s).results,
      i.percentage = if 0 < (getResults s).total_votes
        then pyRound2 ((i.count : ℚ) / ((getResults s).total_votes : ℚ) * 100)
        else 0) ∧
    getResults scenarioCState =
      ⟨4, [⟨cidA, 1, "Andi Pratama", "Siti Lestari", 3, 75⟩,
           ⟨cidB, 2, "Budi Santoso", "Rina Kartika", 1, 25⟩]⟩ := by
  constructor
  · intro s i hi
    rcases (mem_results_iff s i).1 hi with ⟨c, hc, rfl⟩
    by_cases h : 0 < valsum (countsMap s)
    · rw [if_pos (show 0 < (getResults s).total_votes from h)]
      show pyRound2 _ = pyRound2 _
      rw [if_pos h]
      rfl
    · rw [if_neg (show ¬ 0 < (getResults s).total_votes from h)]
      show pyRound2 _ = _
      rw [if_neg h]
      exact pyRound2_zero
  · with_unfolding_all decide

/-- C9 witness: the rounding formula applied to candidate 1's row of the
scenario state. -/
theorem tally_percentage_formula_witness :
    (resultItem scenarioCState candA).percentage
      = (if 0 < (getResults scenarioCState).total_votes
        then pyRound2 (((resultItem scenarioCState candA).count : ℚ)
          / ((getResults scenarioCState).total_votes : ℚ) * 100)
        else 0) :=
  tally_percentage_formula.1 scenarioCState (resultItem scenarioCState candA)
    ((mem_results_iff _ _).2 ⟨candA, by decide, rfl⟩)

end Election
